import Mathlib

set_option maxHeartbeats 1000000

namespace CameraCalib

/-!
Shallow embedding of `imgProcessor/camera/CameraCalibration.py`.

Dates (`time.struct_time` values) are totally ordered; we embed them as
`Nat`.  Pixel values are embedded as `Int`.  Python exceptions are made
explicit with `Except PyErr`; a state-mutating operation that can raise
after having already mutated returns the post-state together with
`Option PyErr`.
-/

/-- Kinds of Python exceptions arising on the embedded code paths. -/
inductive PyErr where
  | indexError
  | keyError
  | typeError
  | valueError
  | shapeMismatch
  | missingCalibration
  deriving DecidableEq

/-- A calibration record `[date, info, data, (error)]` as stored in the
`coeffs` lists of `CameraCalibration`.  The trailing `error` entry plays
no role in any claim and is omitted. -/
structure Rec (α : Type) where
  date : Nat
  info : String
  data : α
  deriving DecidableEq

/-- A requested date argument: Python `None`, an invalid value
(`time.strptime` raises `ValueError` or `TypeError` on it), or a valid
date string parsing to `d`. -/
inductive DateReq where
  | none
  | invalid
  | valid (d : Nat)
  deriving DecidableEq

/-- `_toDate(date)`: `None` becomes the current time `time.localtime()`
(the `now` parameter); a valid string parses to its date; an invalid
argument raises (embedded as `Option.none`). -/
def toDate (req : DateReq) (now : Nat) : Option Nat :=
  match req with
  | DateReq.none => some now
  | DateReq.invalid => Option.none
  | DateReq.valid d => some d

/-- `_insertDateIndex(date, l)`:
`next((i for i, n in enumerate(l) if n[0] < date), len(l))` —
the index of the first record whose date is strictly before `date`,
else `len(l)`.  The record lists are kept newest-first. -/
def insertDateIndex (d : Nat) : List (Rec α) → Nat
  | [] => 0
  | r :: t => if r.date < d then 0 else insertDateIndex d t + 1

/-- Python `list.insert(i, x)`; an index at or past the end appends. -/
def insertAt : Nat → α → List α → List α
  | 0, x, l => x :: l
  | _+1, x, [] => [x]
  | n+1, x, y :: t => y :: insertAt n x t

/-- The insertion performed by every `add*` operation:
`d.insert(_insertDateIndex(date, d), [date, info, data, ...])`. -/
def insertRec (r : Rec α) (l : List (Rec α)) : List (Rec α) :=
  insertAt (insertDateIndex r.date l) r l

/-- `_getFromDate(l, date)`: parse the date (`ValueError`/`TypeError`
falls back to `l[0]`), let `i = _insertDateIndex(date, l) - 1`, return
`l[0]` when `i == -1` and `l[i]` otherwise.  `l[0]` on an empty list
raises `IndexError`, which is not caught. -/
def getFromDate (l : List (Rec α)) (req : DateReq) (now : Nat) :
    Except PyErr (Rec α) :=
  match toDate req now with
  | Option.none =>
    match l.head? with
    | some r => Except.ok r
    | Option.none => Except.error PyErr.indexError
  | some d =>
    if insertDateIndex d l = 0 then
      match l.head? with
      | some r => Except.ok r
      | Option.none => Except.error PyErr.indexError
    else
      match l[insertDateIndex d l - 1]? with
      | some r => Except.ok r
      | Option.none => Except.error PyErr.indexError

/-- A category table: a flat record list for spectrum-independent
categories (`dark current`, `noise`) or an insertion-ordered mapping
from light-spectrum name to a record list (`flat field`, `lens`, `psf`,
`balance`).  Python dicts preserve insertion order, hence the
association list. -/
inductive CatTable (α : Type) where
  | flat (l : List (Rec α))
  | bySpec (m : List (String × List (Rec α)))
  deriving DecidableEq

/-- `d[light]` on a spectrum-keyed dict: `None` or an unknown key raises
`KeyError` (embedded as `Option.none`). -/
def specResolve (light : Option String) (m : List (String × β)) : Option β :=
  match light with
  | Option.none => Option.none
  | some s => m.lookup s

/-- `getCoeff(name, light, date)`: for a flat list `d[light]` raises
`TypeError` and the whole list is used; for a dict a missing (or `None`)
spectrum key raises `KeyError` and the first-inserted spectrum is used
instead (`next(iter(d.items()))`), and `StopIteration` on an empty dict
returns `None`; the chosen list then goes through `_getFromDate`. -/
def getCoeff (t : CatTable α) (light : Option String) (req : DateReq)
    (now : Nat) : Except PyErr (Option (Rec α)) :=
  match t with
  | CatTable.flat l => (getFromDate l req now).map some
  | CatTable.bySpec m =>
    match specResolve light m with
    | some l => (getFromDate l req now).map some
    | Option.none =>
      match m.head? with
      | Option.none => Except.ok Option.none
      | some p => (getFromDate p.2 req now).map some

/-- The date-indexed removal inside `deleteCoeff`: `_toDate` raises on
an invalid date (not caught here), `i = _insertDateIndex(d, c) - 1`,
`c.pop(i)` when `i != -1`, else `raise Exception('no coeff ...')`. -/
def deleteFromList (l : List (Rec α)) (req : DateReq) (now : Nat) :
    Except PyErr (List (Rec α)) :=
  match toDate req now with
  | Option.none => Except.error PyErr.valueError
  | some d =>
    if insertDateIndex d l = 0 then Except.error PyErr.missingCalibration
    else Except.ok (l.eraseIdx (insertDateIndex d l - 1))

/-- Replace the value stored under an existing key of an
insertion-ordered dict (Python dict assignment keeps the key's slot). -/
def updateAssoc (m : List (String × β)) (k : String) (v : β) :
    List (String × β) :=
  m.map (fun p => if p.1 = k then (k, v) else p)

/-- `deleteCoeff(name, date, light)`: `self.coeffs[name][light]` raises
`TypeError` on a flat list (caught, the list itself is used) but
`KeyError` on a dict without the key (or with `light=None`), which is
not caught; then `deleteFromList`. -/
def deleteCoeff (t : CatTable α) (light : Option String) (req : DateReq)
    (now : Nat) : Except PyErr (CatTable α) :=
  match t with
  | CatTable.flat l => (deleteFromList l req now).map CatTable.flat
  | CatTable.bySpec m =>
    match light with
    | Option.none => Except.error PyErr.keyError
    | some s =>
      match m.lookup s with
      | Option.none => Except.error PyErr.keyError
      | some l =>
        (deleteFromList l req now).map
          (fun l2 => CatTable.bySpec (updateAssoc m s l2))

/-! ## Images and the camera profile -/

/-- A 2-D numeric array; pixel values are embedded as `Int`. -/
abbrev Image := List (List Int)

abbrev Shape := Nat × Nat

/-- `array.shape[:2]` of a 2-D array. -/
def shape2 (a : Image) : Shape := (a.length, (a.headD []).length)

def zipImg (f : Int → Int → Int) (a b : Image) : Image :=
  List.zipWith (List.zipWith f) a b

def subImg (a b : Image) : Image := zipImg (fun x y => x - y) a b

def addImg (a b : Image) : Image := zipImg (fun x y => x + y) a b

def scaleImg (a : Image) (t : Int) : Image := a.map (fun r => r.map (fun v => v * t))

/-- `bg[bg > mx] = mx`: clamp all values above `mx` down to `mx`. -/
def clampAbove (a : Image) (mx : Int) : Image :=
  a.map (fun r => r.map (fun v => if v > mx then mx else v))

/-- `deconvolved[deconvolved < 0] = 0`. -/
def clampBelow0 (a : Image) : Image :=
  a.map (fun r => r.map (fun v => if v < 0 then 0 else v))

/-- `np.nan_to_num`: the integer pixel model has no non-finite values,
so this is the identity. -/
def nanToNum (a : Image) : Image := a

def imgMax (a : Image) : Int :=
  (a.map (fun r => r.foldl max 0)).foldl max 0

/-- `image /= mx` (elementwise division by the stored maximum). -/
def scaleDivImg (a : Image) (mx : Int) : Image :=
  a.map (fun r => r.map (fun v => v / mx))

/-- `image -= bg` for two 2-D arrays: elementwise when the shapes agree,
otherwise numpy raises a broadcasting `ValueError`. -/
def arraySub (img bg : Image) : Except PyErr Image :=
  if shape2 bg = shape2 img then Except.ok (subImg img bg)
  else Except.error PyErr.valueError

/-- Payload of a dark-current record: a constant background array
(`slope` alone) or the Python tuple `(slope, intercept)`. -/
inductive DCData where
  | single (a : Image)
  | pair (slope intercept : Image)
  deriving DecidableEq

/-- The `self.coeffs` dict of a `CameraCalibration` object.  Lens
coefficient blobs are opaque (`Nat`); noise-level-function coefficient
vectors are `List Int`; deconvolution balance values are `Int`. -/
structure Coeffs where
  name : String
  depth : Nat
  lightSpectra : List String
  darkCurrent : List (Rec DCData)
  flatField : List (String × List (Rec Image))
  lens : List (String × List (Rec Nat))
  noise : List (Rec (List Int))
  psf : List (String × List (Rec Image))
  shape : Option Shape
  balance : List (String × List (Rec Int))
  deriving DecidableEq

def setShape (c : Coeffs) (s : Option Shape) : Coeffs :=
  ⟨c.name, c.depth, c.lightSpectra, c.darkCurrent, c.flatField, c.lens,
   c.noise, c.psf, s, c.balance⟩

def setDarkCurrent (c : Coeffs) (l : List (Rec DCData)) : Coeffs :=
  ⟨c.name, c.depth, c.lightSpectra, l, c.flatField, c.lens,
   c.noise, c.psf, c.shape, c.balance⟩

def setFlatField (c : Coeffs) (m : List (String × List (Rec Image))) : Coeffs :=
  ⟨c.name, c.depth, c.lightSpectra, c.darkCurrent, m, c.lens,
   c.noise, c.psf, c.shape, c.balance⟩

def setLensTable (c : Coeffs) (m : List (String × List (Rec Nat))) : Coeffs :=
  ⟨c.name, c.depth, c.lightSpectra, c.darkCurrent, c.flatField, m,
   c.noise, c.psf, c.shape, c.balance⟩

def setNoise (c : Coeffs) (l : List (Rec (List Int))) : Coeffs :=
  ⟨c.name, c.depth, c.lightSpectra, c.darkCurrent, c.flatField, c.lens,
   l, c.psf, c.shape, c.balance⟩

def setPsf (c : Coeffs) (m : List (String × List (Rec Image))) : Coeffs :=
  ⟨c.name, c.depth, c.lightSpectra, c.darkCurrent, c.flatField, c.lens,
   c.noise, m, c.shape, c.balance⟩

def setBalance (c : Coeffs) (m : List (String × List (Rec Int))) : Coeffs :=
  ⟨c.name, c.depth, c.lightSpectra, c.darkCurrent, c.flatField, c.lens,
   c.noise, c.psf, c.shape, m⟩

/-- `_registerLight`: append the spectrum to `coeffs['light spectra']`
when it is not already present. -/
def registerLight (c : Coeffs) (light : String) : Coeffs :=
  if light ∈ c.lightSpectra then c
  else ⟨c.name, c.depth, c.lightSpectra ++ [light], c.darkCurrent,
        c.flatField, c.lens, c.noise, c.psf, c.shape, c.balance⟩

/-- `_checkShape(array)` on an actual array: a `None` stored shape is
set to the array's shape; a disagreement of the leading two dimensions
raises. -/
def checkShape (s : Option Shape) (arr : Image) :
    Except PyErr (Option Shape) :=
  match s with
  | Option.none => Except.ok (some (shape2 arr))
  | some s0 =>
    if s0 = shape2 arr then Except.ok (some s0)
    else Except.error PyErr.shapeMismatch

/-- `_checkShape` on a value that may not be an array (`intercept` may
be `None`, in which case the check returns immediately). -/
def checkShapeOpt (s : Option Shape) (arr : Option Image) :
    Except PyErr (Option Shape) :=
  match arr with
  | Option.none => Except.ok s
  | some a => checkShape s a

/-- Insert a record into the sequence of a spectrum, creating the
spectrum's (insertion-ordered) dict entry if needed:
`if light not in f: f[light] = []` then `f[light].insert(...)`. -/
def insertSpec (m : List (String × List (Rec α))) (k : String)
    (r : Rec α) : List (String × List (Rec α)) :=
  match m.lookup k with
  | Option.none => m ++ [(k, [r])]
  | some l => updateAssoc m k (insertRec r l)

/-- `addDarkCurrent(slope, intercept, date, info)`: parse the date,
shape-check `slope` then `intercept`, store `slope` alone or the tuple
`(slope, intercept)` at the date-sorted index. -/
def addDarkCurrent (c : Coeffs) (slope : Image) (intercept : Option Image)
    (req : DateReq) (info : String) (now : Nat) : Coeffs × Option PyErr :=
  match toDate req now with
  | Option.none => (c, some PyErr.valueError)
  | some d =>
    match checkShape c.shape slope with
    | Except.error e => (c, some e)
    | Except.ok s1 =>
      let c1 := setShape c s1
      match checkShapeOpt s1 intercept with
      | Except.error e => (c1, some e)
      | Except.ok s2 =>
        let c2 := setShape c1 s2
        let data := match intercept with
          | Option.none => DCData.single slope
          | some o => DCData.pair slope o
        (setDarkCurrent c2 (insertRec ⟨d, info, data⟩ c2.darkCurrent),
         Option.none)

/-- `addNoise(nlf_coeff, date, info)`. -/
def addNoise (c : Coeffs) (coeff : List Int) (req : DateReq)
    (info : String) (now : Nat) : Coeffs × Option PyErr :=
  match toDate req now with
  | Option.none => (c, some PyErr.valueError)
  | some d =>
    (setNoise c (insertRec ⟨d, info, coeff⟩ c.noise), Option.none)

/-- `addDeconvolutionBalance(balance, date, info, light_spectrum)`. -/
def addDeconvolutionBalance (c : Coeffs) (bal : Int) (req : DateReq)
    (info : String) (light : String) (now : Nat) : Coeffs × Option PyErr :=
  let c1 := registerLight c light
  match toDate req now with
  | Option.none => (c1, some PyErr.valueError)
  | some d =>
    (setBalance c1 (insertSpec c1.balance light ⟨d, info, bal⟩), Option.none)

/-- `addPSF(psf, date, info, light_spectrum)`. -/
def addPSF (c : Coeffs) (psf : Image) (req : DateReq) (info : String)
    (light : String) (now : Nat) : Coeffs × Option PyErr :=
  let c1 := registerLight c light
  match toDate req now with
  | Option.none => (c1, some PyErr.valueError)
  | some d =>
    (setPsf c1 (insertSpec c1.psf light ⟨d, info, psf⟩), Option.none)

/-- `addFlatField(arr, date, info, error, light_spectrum)`: the spectrum
is registered first, then the shape check runs (raising on mismatch with
the spectrum already registered), then the date parse, then insertion. -/
def addFlatField (c : Coeffs) (arr : Image) (req : DateReq) (info : String)
    (light : String) (now : Nat) : Coeffs × Option PyErr :=
  let c1 := registerLight c light
  match checkShape c1.shape arr with
  | Except.error e => (c1, some e)
  | Except.ok s1 =>
    let c2 := setShape c1 s1
    match toDate req now with
    | Option.none => (c2, some PyErr.valueError)
    | some d =>
      (setFlatField c2 (insertSpec c2.flatField light ⟨d, info, arr⟩),
       Option.none)

/-- `addLens(lens, date, info, light_spectrum)` with a ready
`LensDistortion` instance, whose coefficient blob is stored. -/
def addLens (c : Coeffs) (lensCoeffs : Nat) (req : DateReq) (info : String)
    (light : String) (now : Nat) : Coeffs × Option PyErr :=
  let c1 := registerLight c light
  match toDate req now with
  | Option.none => (c1, some PyErr.valueError)
  | some d =>
    (setLensTable c1 (insertSpec c1.lens light ⟨d, info, lensCoeffs⟩),
     Option.none)

/-- `[l[-1]]`: keep only the last element; `IndexError` on an empty
list. -/
def lastOnly (l : List (Rec α)) : Except PyErr (List (Rec α)) :=
  match l.getLast? with
  | some r => Except.ok [r]
  | Option.none => Except.error PyErr.indexError

/-- `[d[light][-1]]` for every spectrum of a dict category. -/
def lastOnlySpec : List (String × List (Rec α)) →
    Except PyErr (List (String × List (Rec α)))
  | [] => Except.ok []
  | (k, l) :: rest =>
    match l.getLast? with
    | Option.none => Except.error PyErr.indexError
    | some r =>
      match lastOnlySpec rest with
      | Except.error e => Except.error e
      | Except.ok rest2 => Except.ok ((k, [r]) :: rest2)

/-- `clearOldCalibrations()`: replaces `dark current`, `noise`, every
`flat field` spectrum and every `lens` spectrum by the one-element list
holding its last entry; `psf` and `balance` are not touched. -/
def clearOldCalibrations (c : Coeffs) : Except PyErr Coeffs :=
  match lastOnly c.darkCurrent with
  | Except.error e => Except.error e
  | Except.ok dc =>
    match lastOnly c.noise with
    | Except.error e => Except.error e
    | Except.ok nz =>
      match lastOnlySpec c.flatField with
      | Except.error e => Except.error e
      | Except.ok ff =>
        match lastOnlySpec c.lens with
        | Except.error e => Except.error e
        | Except.ok ln =>
          Except.ok ⟨c.name, c.depth, c.lightSpectra, dc, ff, ln,
                     nz, c.psf, c.shape, c.balance⟩

/-! ## The correction pipeline -/

/-- External numeric collaborators invoked by the pipeline stages
(`medianThreshold`, the two wiener deconvolutions, the lens-correction
object and non-local-means denoising).  Each may raise. -/
structure Collabs where
  medianThreshold : Image → Int → Except PyErr Image
  wiener : Image → Image → Int → Except PyErr Image
  unsupervisedWiener : Image → Image → Except PyErr Image
  lensCorrect : Nat → Image → Bool → Except PyErr Image
  denoiseNlm : Image → Except PyErr Image

/-- `type(d) == tuple` where `d` is a stored dark-current record: records
are built by `addDarkCurrent` as Python lists `[date, info, data, error]`,
so this test is always `False` (the payload `d[2]`, not the record, can
be a tuple). -/
def recIsTuple (_ : Rec α) : Bool := false

/-- `calcDarkCurrent(exposuretime, date)`: pick the record via
`_getFromDate`; when `type(d) == tuple` unpack `offs, ascent = d[2]`
(for a stored pair `d[2] = (slope, intercept)`, so `offs` is the slope
and `ascent` the intercept) and clamp `offs + ascent * exposuretime` at
`2**depth - 1`; otherwise return `d[2]` as-is. -/
def calcDarkCurrent (dc : List (Rec DCData)) (t : Option Int)
    (req : DateReq) (now : Nat) (depth : Nat) : Except PyErr DCData :=
  match getFromDate dc req now with
  | Except.error e => Except.error e
  | Except.ok r =>
    if recIsTuple r then
      match r.data, t with
      | DCData.pair slope intercept, some t0 =>
        Except.ok (DCData.single
          (clampAbove (addImg slope (scaleImg intercept t0))
            ((2:Int) ^ depth - 1)))
      | _, _ => Except.error PyErr.typeError
    else Except.ok r.data

/-- `_correctDarkCurrent` without background-image stacks: a directly
given background image is subtracted, else the `calcDarkCurrent` result
is; `image -= bg` where `bg` is the raw `(slope, intercept)` tuple fails
to broadcast and raises. -/
def correctDarkCurrent (c : Coeffs) (img : Image) (bgImage : Option Image)
    (t : Option Int) (req : DateReq) (now : Nat) : Except PyErr Image :=
  match bgImage with
  | some bg => arraySub img bg
  | Option.none =>
    match calcDarkCurrent c.darkCurrent t req now c.depth with
    | Except.error e => Except.error e
    | Except.ok (DCData.single b) => arraySub img b
    | Except.ok (DCData.pair _ _) => Except.error PyErr.valueError

/-- `_correctVignetting`: divide elementwise by the flat-field
coefficients where they are nonzero; a missing record skips the stage. -/
def correctVignetting (c : Coeffs) (img : Image) (light : Option String)
    (req : DateReq) (now : Nat) : Except PyErr Image :=
  match getCoeff (CatTable.bySpec c.flatField) light req now with
  | Except.error e => Except.error e
  | Except.ok Option.none => Except.ok img
  | Except.ok (some r) =>
    if shape2 r.data = shape2 img then
      Except.ok (zipImg (fun p cf => if cf = 0 then p else p / cf) img r.data)
    else Except.error PyErr.valueError

/-- `_correctArtefacts`: `np.nan_to_num` then the external
`medianThreshold` collaborator. -/
def correctArtefacts (cb : Collabs) (img : Image) (threshold : Int) :
    Except PyErr Image :=
  cb.medianThreshold (nanToNum img) threshold

/-- `_correctBlur`: a missing PSF skips the stage; otherwise the image
is normalized by its maximum, deconvolved (supervised when a balance
record exists, unsupervised otherwise), clipped at zero and rescaled. -/
def correctBlur (c : Coeffs) (cb : Collabs) (img : Image)
    (light : Option String) (req : DateReq) (now : Nat) :
    Except PyErr Image :=
  match getCoeff (CatTable.bySpec c.psf) light req now with
  | Except.error e => Except.error e
  | Except.ok Option.none => Except.ok img
  | Except.ok (some r) =>
    let mx := imgMax img
    let norm := scaleDivImg img mx
    match getCoeff (CatTable.bySpec c.balance) light req now with
    | Except.error e => Except.error e
    | Except.ok Option.none =>
      match cb.unsupervisedWiener norm r.data with
      | Except.error e => Except.error e
      | Except.ok dec => Except.ok (scaleImg (clampBelow0 dec) mx)
    | Except.ok (some b) =>
      match cb.wiener norm r.data b.data with
      | Except.error e => Except.error e
      | Except.ok dec => Except.ok (scaleImg (clampBelow0 dec) mx)

/-- `_correctLens` via `getLens`: a missing lens record passes the image
through; otherwise the external lens-correction collaborator runs with
the `keep_size` policy. -/
def correctLens (c : Coeffs) (cb : Collabs) (img : Image)
    (light : Option String) (req : DateReq) (now : Nat) (keepSize : Bool) :
    Except PyErr Image :=
  match getCoeff (CatTable.bySpec c.lens) light req now with
  | Except.error e => Except.error e
  | Except.ok Option.none => Except.ok img
  | Except.ok (some r) => cb.lensCorrect r.data img keepSize

/-- A `try: ... except Exception: pass`-wrapped stage: on failure the
pipeline proceeds with the pre-stage image. -/
def tryStage (img : Image) (r : Except PyErr Image) : Image :=
  match r with
  | Except.ok i => i
  | Except.error _ => img

/-- `correct(images, bgImages, exposure_time, light_spectrum, threshold,
keep_size, date, deblur, denoise)` for a single already-loaded image and
one date request applied to every category (the string-or-`None` form of
the `date` argument).  The spectrum defaults to the first registered
one; `_checkShape` validates the image (uncaught); the dark-current,
vignetting, artefact, deblur and lens stages are each wrapped in
`try/except`; the final denoise stage is not. -/
def resolveLight (c : Coeffs) (lightOpt : Option String) : Option String :=
  match lightOpt with
  | some s => some s
  | Option.none => c.lightSpectra.head?

def correct (c : Coeffs) (cb : Collabs) (img : Image)
    (bgImage : Option Image) (t : Option Int) (lightOpt : Option String)
    (threshold : Int) (keepSize deblur denoise : Bool)
    (req : DateReq) (now : Nat) : Except PyErr Image :=
  match checkShape c.shape img with
  | Except.error e => Except.error e
  | Except.ok _ =>
    let light := resolveLight c lightOpt
    let i1 := tryStage img (correctDarkCurrent c img bgImage t req now)
    let i2 := tryStage i1 (correctVignetting c i1 light req now)
    let i3 := if 0 < threshold
      then tryStage i2 (correctArtefacts cb i2 threshold) else i2
    let i4 := if deblur
      then tryStage i3 (correctBlur c cb i3 light req now) else i3
    let i5 := tryStage i4 (correctLens c cb i4 light req now keepSize)
    if denoise then cb.denoiseNlm (nanToNum i5) else Except.ok i5

/-- Replace only the `medianThreshold` collaborator. -/
def setMedian (cb : Collabs) (f : Image → Int → Except PyErr Image) :
    Collabs :=
  ⟨f, cb.wiener, cb.unsupervisedWiener, cb.lensCorrect, cb.denoiseNlm⟩

/-- Modelled from the spec: the dark-current background synthesis
`offset + slope × exposure_time`, clamped above at the sensor maximum
`2^bit_depth − 1` (the repository's `calcDarkCurrent` is specified to
compute this when the record stores an `(offset, slope)` pair). -/
def specSynthBackground (offset slope : Image) (t : Int) (depth : Nat) :
    Image :=
  clampAbove (addImg offset (scaleImg slope t)) ((2:Int) ^ depth - 1)

/-- Sample collaborators that never raise. -/
def sampleCollabs : Collabs :=
  ⟨fun i _ => Except.ok i, fun i _ _ => Except.ok i,
   fun i _ => Except.ok i, fun _ i _ => Except.ok i,
   fun i => Except.ok i⟩

/-- The empty camera profile (`CameraCalibration.__init__`). -/
def emptyCoeffs : Coeffs :=
  ⟨"no camera", 16, [], [], [], [], [], [], Option.none, []⟩

/-! ## Sorted-order predicates -/

/-- Dates are non-increasing from newest to oldest. -/
def descB : List (Rec α) → Bool
  | [] => true
  | [_] => true
  | a :: b :: t => decide (b.date ≤ a.date) && descB (b :: t)

/-- Dates are strictly decreasing from newest to oldest. -/
def strictDescB : List (Rec α) → Bool
  | [] => true
  | [_] => true
  | a :: b :: t => decide (b.date < a.date) && strictDescB (b :: t)

/-- The table built by a sequence of `add*` calls: each call inserts its
record via `insertRec` into the (initially empty) sequence. -/
def buildSeq (rs : List (Rec α)) : List (Rec α) :=
  rs.foldl (fun l r => insertRec r l) []

/-! ## Helper lemmas -/

theorem insertDateIndex_le_length (d : Nat) (l : List (Rec α)) :
    insertDateIndex d l ≤ l.length := by
  induction l with
  | nil => simp [insertDateIndex]
  | cons x t ih =>
    simp only [insertDateIndex, List.length_cons]
    split
    · omega
    · omega

theorem getFromDate_nil (req : DateReq) (now : Nat) :
    getFromDate ([] : List (Rec α)) req now
      = Except.error PyErr.indexError := by
  cases req <;> rfl

theorem getFromDate_valid_eq (l : List (Rec α)) (d now : Nat) :
    getFromDate l (DateReq.valid d) now =
      if insertDateIndex d l = 0 then
        match l.head? with
        | some r => Except.ok r
        | Option.none => Except.error PyErr.indexError
      else
        match l[insertDateIndex d l - 1]? with
        | some r => Except.ok r
        | Option.none => Except.error PyErr.indexError := rfl

theorem getFromDate_nowreq_eq (l : List (Rec α)) (now : Nat) :
    getFromDate l DateReq.none now
      = getFromDate l (DateReq.valid now) now := rfl

theorem getFromDate_invalid_eq (l : List (Rec α)) (now : Nat) :
    getFromDate l DateReq.invalid now =
      match l.head? with
      | some r => Except.ok r
      | Option.none => Except.error PyErr.indexError := rfl

theorem getFromDate_valid_ne_nil (l : List (Rec α)) (d now : Nat)
    (h : l ≠ []) :
    ∃ r, getFromDate l (DateReq.valid d) now = Except.ok r ∧ r ∈ l := by
  obtain ⟨x, t, rfl⟩ := List.exists_cons_of_ne_nil h
  rw [getFromDate_valid_eq]
  by_cases h0 : insertDateIndex d (x :: t) = 0
  · rw [if_pos h0]
    exact ⟨x, rfl, List.mem_cons_self x t⟩
  · rw [if_neg h0]
    have hle := insertDateIndex_le_length d (x :: t)
    have hlt : insertDateIndex d (x :: t) - 1 < (x :: t).length := by
      simp only [List.length_cons] at hle ⊢
      omega
    rw [List.getElem?_eq_getElem hlt]
    exact ⟨_, rfl, List.getElem_mem hlt⟩

theorem getFromDate_ne_nil (l : List (Rec α)) (req : DateReq) (now : Nat)
    (h : l ≠ []) : ∃ r, getFromDate l req now = Except.ok r ∧ r ∈ l := by
  cases req with
  | none =>
    rw [getFromDate_nowreq_eq]
    exact getFromDate_valid_ne_nil l now now h
  | invalid =>
    obtain ⟨x, t, rfl⟩ := List.exists_cons_of_ne_nil h
    refine ⟨x, ?_, List.mem_cons_self x t⟩
    rw [getFromDate_invalid_eq]
    rfl
  | valid d => exact getFromDate_valid_ne_nil l d now h

theorem getCoeff_bySpec_nil (light : Option String) (req : DateReq)
    (now : Nat) :
    getCoeff (CatTable.bySpec ([] : List (String × List (Rec α))))
      light req now = Except.ok Option.none := by
  cases light <;> rfl

theorem descB_tail {a : Rec α} {t : List (Rec α)}
    (h : descB (a :: t) = true) : descB t = true := by
  cases t with
  | nil => rfl
  | cons b t2 =>
    have h2 : (decide (b.date ≤ a.date) && descB (b :: t2)) = true := h
    exact (Bool.and_eq_true _ _ |>.mp h2).2

theorem descB_head_ge {a : Rec α} {t : List (Rec α)}
    (h : descB (a :: t) = true) :
    ∀ j, (hj : j < t.length) → t[j].date ≤ a.date := by
  induction t generalizing a with
  | nil => intro j hj; exact absurd hj (Nat.not_lt_zero j)
  | cons b t2 ih =>
    intro j hj
    have h2 : (decide (b.date ≤ a.date) && descB (b :: t2)) = true := h
    have h3 := Bool.and_eq_true _ _ |>.mp h2
    have hba : b.date ≤ a.date := of_decide_eq_true h3.1
    cases j with
    | zero => simpa using hba
    | succ j2 =>
      have := ih h3.2 j2 (by simpa using hj)
      simp only [List.getElem_cons_succ]
      omega

theorem descB_le {l : List (Rec α)} (h : descB l = true) :
    ∀ i j, (hi : i < l.length) → (hj : j < l.length) → i ≤ j →
      l[j].date ≤ l[i].date := by
  induction l with
  | nil => intro i j hi; exact absurd hi (Nat.not_lt_zero i)
  | cons a t ih =>
    intro i j hi hj hij
    cases i with
    | zero =>
      cases j with
      | zero => exact Nat.le_refl _
      | succ j2 =>
        simp only [List.getElem_cons_zero, List.getElem_cons_succ]
        exact descB_head_ge h j2 (by simpa using hj)
    | succ i2 =>
      cases j with
      | zero => omega
      | succ j2 =>
        simp only [List.getElem_cons_succ]
        exact ih (descB_tail h) i2 j2 (by simpa using hi)
          (by simpa using hj) (by omega)

theorem insertRec_nil (r : Rec α) : insertRec r [] = [r] := rfl

theorem insertRec_cons (r x : Rec α) (t : List (Rec α)) :
    insertRec r (x :: t) =
      if x.date < r.date then r :: x :: t else x :: insertRec r t := by
  unfold insertRec
  simp only [insertDateIndex]
  by_cases h : x.date < r.date
  · rw [if_pos h, if_pos h]
    rfl
  · rw [if_neg h, if_neg h]
    rfl

theorem descB_insertRec {l : List (Rec α)} (r : Rec α)
    (h : descB l = true) : descB (insertRec r l) = true := by
  induction l with
  | nil => rfl
  | cons x t ih =>
    rw [insertRec_cons]
    by_cases hx : x.date < r.date
    · rw [if_pos hx]
      show (decide (x.date ≤ r.date) && descB (x :: t)) = true
      rw [Bool.and_eq_true, decide_eq_true_eq]
      exact ⟨Nat.le_of_lt hx, h⟩
    · rw [if_neg hx]
      cases t with
      | nil =>
        show (decide (r.date ≤ x.date) && descB [r]) = true
        rw [Bool.and_eq_true, decide_eq_true_eq]
        exact ⟨Nat.le_of_not_lt hx, rfl⟩
      | cons y t2 =>
        rw [insertRec_cons]
        have hxy : y.date ≤ x.date := by
          have h2 : (decide (y.date ≤ x.date) && descB (y :: t2)) = true := h
          exact of_decide_eq_true (Bool.and_eq_true _ _ |>.mp h2).1
        by_cases hy : y.date < r.date
        · rw [if_pos hy]
          have ht : descB (y :: t2) = true := descB_tail h
          show (decide (r.date ≤ x.date) && descB (r :: y :: t2)) = true
          rw [Bool.and_eq_true, decide_eq_true_eq]
          refine ⟨Nat.le_of_not_lt hx, ?_⟩
          show (decide (y.date ≤ r.date) && descB (y :: t2)) = true
          rw [Bool.and_eq_true, decide_eq_true_eq]
          exact ⟨Nat.le_of_lt hy, ht⟩
        · rw [if_neg hy]
          have hins : descB (y :: insertRec r t2) = true := by
            have h2 := ih (descB_tail h)
            rwa [insertRec_cons, if_neg hy] at h2
          show (decide (y.date ≤ x.date) && descB (y :: insertRec r t2))
              = true
          rw [Bool.and_eq_true, decide_eq_true_eq]
          exact ⟨hxy, hins⟩

theorem strictDescB_insertRec {l : List (Rec α)} (r : Rec α)
    (h : strictDescB l = true) (hf : ∀ y ∈ l, y.date ≠ r.date) :
    strictDescB (insertRec r l) = true := by
  induction l with
  | nil => rfl
  | cons x t ih =>
    rw [insertRec_cons]
    by_cases hx : x.date < r.date
    · rw [if_pos hx]
      show (decide (x.date < r.date) && strictDescB (x :: t)) = true
      rw [Bool.and_eq_true, decide_eq_true_eq]
      exact ⟨hx, h⟩
    · have hrx : r.date < x.date := by
        have := hf x (List.mem_cons_self x t)
        omega
      rw [if_neg hx]
      cases t with
      | nil =>
        show (decide (r.date < x.date) && strictDescB [r]) = true
        rw [Bool.and_eq_true, decide_eq_true_eq]
        exact ⟨hrx, rfl⟩
      | cons y t2 =>
        rw [insertRec_cons]
        have hxy : y.date < x.date := by
          have h2 : (decide (y.date < x.date) && strictDescB (y :: t2))
              = true := h
          exact of_decide_eq_true (Bool.and_eq_true _ _ |>.mp h2).1
        have htail : strictDescB (y :: t2) = true := by
          have h2 : (decide (y.date < x.date) && strictDescB (y :: t2))
              = true := h
          exact (Bool.and_eq_true _ _ |>.mp h2).2
        by_cases hy : y.date < r.date
        · rw [if_pos hy]
          show (decide (r.date < x.date) && strictDescB (r :: y :: t2))
              = true
          rw [Bool.and_eq_true, decide_eq_true_eq]
          refine ⟨hrx, ?_⟩
          show (decide (y.date < r.date) && strictDescB (y :: t2)) = true
          rw [Bool.and_eq_true, decide_eq_true_eq]
          exact ⟨hy, htail⟩
        · rw [if_neg hy]
          have hins : strictDescB (y :: insertRec r t2) = true := by
            have h2 := ih htail
              (fun z hz => hf z (List.mem_cons_of_mem x hz))
            rwa [insertRec_cons, if_neg hy] at h2
          show (decide (y.date < x.date)
              && strictDescB (y :: insertRec r t2)) = true
          rw [Bool.and_eq_true, decide_eq_true_eq]
          exact ⟨hxy, hins⟩

theorem mem_insertRec {y r : Rec α} {l : List (Rec α)}
    (h : y ∈ insertRec r l) : y = r ∨ y ∈ l := by
  induction l with
  | nil =>
    rw [insertRec_nil] at h
    simp only [List.mem_singleton] at h
    exact Or.inl h
  | cons x t ih =>
    rw [insertRec_cons] at h
    by_cases hx : x.date < r.date
    · rw [if_pos hx] at h
      simp only [List.mem_cons] at h ⊢
      tauto
    · rw [if_neg hx] at h
      simp only [List.mem_cons] at h ⊢
      rcases h with h | h
      · tauto
      · rcases ih h with h2 | h2 <;> tauto

theorem descB_foldl (rs : List (Rec α)) (acc : List (Rec α))
    (h : descB acc = true) :
    descB (rs.foldl (fun l r => insertRec r l) acc) = true := by
  induction rs generalizing acc with
  | nil => exact h
  | cons r rest ih => exact ih _ (descB_insertRec r h)

theorem strictDescB_foldl (rs : List (Rec α)) (acc : List (Rec α))
    (h : strictDescB acc = true)
    (hp : rs.Pairwise (fun a b => a.date ≠ b.date))
    (hd : ∀ y ∈ acc, ∀ p ∈ rs, y.date ≠ p.date) :
    strictDescB (rs.foldl (fun l r => insertRec r l) acc) = true := by
  induction rs generalizing acc with
  | nil => exact h
  | cons r rest ih =>
    simp only [List.foldl_cons]
    rcases List.pairwise_cons.mp hp with ⟨hr, hrest⟩
    refine ih _ (strictDescB_insertRec r h
      (fun y hy => hd y hy r (List.mem_cons_self r rest))) hrest ?_
    intro y hy p hp2
    rcases mem_insertRec hy with rfl | hy2
    · exact hr p hp2
    · exact hd y hy2 p (List.mem_cons_of_mem r hp2)

theorem insertDateIndex_eq (l : List (Rec α)) (d m : Nat)
    (hm : m ≤ l.length)
    (h1 : ∀ j, (hj : j < l.length) → j < m → d ≤ l[j].date)
    (h2 : (hm2 : m < l.length) → l[m].date < d) :
    insertDateIndex d l = m := by
  induction l generalizing m with
  | nil =>
    simp only [List.length_nil] at hm
    simp [insertDateIndex]
    omega
  | cons x t ih =>
    simp only [insertDateIndex]
    by_cases hx : x.date < d
    · rw [if_pos hx]
      by_contra hne
      have hm1 : 0 < m := by omega
      have := h1 0 (by simp) (by omega)
      simp only [List.getElem_cons_zero] at this
      omega
    · rw [if_neg hx]
      cases m with
      | zero =>
        exfalso
        have := h2 (by simp)
        simp only [List.getElem_cons_zero] at this
        exact hx this
      | succ m2 =>
        have heq : insertDateIndex d t = m2 := by
          refine ih m2 (by simpa using hm) ?_ ?_
          · intro j hj hjm
            have := h1 (j + 1) (by simpa using hj) (by omega)
            simpa using this
          · intro hm2
            have := h2 (by simpa using hm2)
            simpa using this
        omega

theorem getFromDate_last_onOrAfter (l : List (Rec α)) (d now k : Nat)
    (hs : descB l = true) (hk : k < l.length) (hge : d ≤ l[k].date)
    (hafter : ∀ j, (hj : j < l.length) → k < j → l[j].date < d) :
    getFromDate l (DateReq.valid d) now = Except.ok l[k] := by
  have hidx : insertDateIndex d l = k + 1 := by
    refine insertDateIndex_eq l d (k + 1) (by omega) ?_ ?_
    · intro j hj hjk
      have := descB_le hs j k hj hk (by omega)
      omega
    · intro hm2
      exact hafter (k + 1) hm2 (by omega)
  rw [getFromDate_valid_eq, hidx]
  rw [if_neg (Nat.succ_ne_zero k)]
  simp only [Nat.add_sub_cancel]
  rw [List.getElem?_eq_getElem hk]

theorem getFromDate_all_before (l : List (Rec α)) (d now : Nat)
    (hne : l ≠ []) (hall : ∀ r ∈ l, r.date < d) :
    getFromDate l (DateReq.valid d) now = Except.ok (l.head hne) := by
  obtain ⟨x, t, rfl⟩ := List.exists_cons_of_ne_nil hne
  rw [getFromDate_valid_eq]
  have h0 : insertDateIndex d (x :: t) = 0 := by
    simp only [insertDateIndex]
    rw [if_pos (hall x (List.mem_cons_self x t))]
  rw [h0]
  rfl

theorem getFromDate_invalid (l : List (Rec α)) (now : Nat) (hne : l ≠ []) :
    getFromDate l DateReq.invalid now = Except.ok (l.head hne) := by
  obtain ⟨x, t, rfl⟩ := List.exists_cons_of_ne_nil hne
  rfl

theorem getFromDate_none_now (l : List (Rec α)) (now : Nat) (hne : l ≠ [])
    (hall : ∀ r ∈ l, r.date < now) :
    getFromDate l DateReq.none now = Except.ok (l.head hne) := by
  obtain ⟨x, t, rfl⟩ := List.exists_cons_of_ne_nil hne
  rw [getFromDate_nowreq_eq, getFromDate_valid_eq]
  have h0 : insertDateIndex now (x :: t) = 0 := by
    simp only [insertDateIndex]
    rw [if_pos (hall x (List.mem_cons_self x t))]
  rw [h0]
  rfl

/-! ## Claim theorems -/

/-- Claim C1, counterexample: with records dated 2020-03-01 and
2020-01-01 (newest first), `getCoeff(date="2020-02-01")` returns the
2020-03-01 record, not the 2020-01-01 record the claim asserts (the
"first record whose date is not after the requested date" rule does not
hold: the returned record's date is after the requested date). -/
theorem C1_counterexample :
    getCoeff (CatTable.flat [(⟨20200301, "march", "m"⟩ : Rec String),
        ⟨20200101, "january", "j"⟩]) Option.none (DateReq.valid 20200201)
        20991231 = Except.ok (some ⟨20200301, "march", "m"⟩)
    ∧ (20200301 : Nat) ≠ 20200101 := ⟨rfl, by decide⟩

/-- Claim C1, amended: on a descending-sorted sequence,
`_getFromDate`/`getCoeff` return the oldest record whose date is
on-or-after the requested date (position-wise, the last such record
scanning from newest to oldest); when all records are strictly before
the requested date, when the date is invalid, or when the date is
absent and the current time postdates every record, the newest record
(`l[0]`) is returned.  With records `[2020-03-01, 2020-01-01]`:
a request for 2020-02-01 yields the 2020-03-01 record, a request for
2019-01-01 yields the 2020-01-01 record, and `date=None` yields the
newest record. -/
theorem C1_amended :
    (∀ (l : List (Rec String)) (d now k : Nat), descB l = true →
      ∀ (hk : k < l.length), d ≤ l[k].date →
      (∀ j, (hj : j < l.length) → k < j → l[j].date < d) →
      getFromDate l (DateReq.valid d) now = Except.ok l[k])
    ∧ (∀ (l : List (Rec String)) (d now : Nat) (hne : l ≠ []),
        (∀ r ∈ l, r.date < d) →
        getFromDate l (DateReq.valid d) now = Except.ok (l.head hne))
    ∧ (∀ (l : List (Rec String)) (now : Nat) (hne : l ≠ []),
        getFromDate l DateReq.invalid now = Except.ok (l.head hne))
    ∧ (∀ (l : List (Rec String)) (now : Nat) (hne : l ≠ []),
        (∀ r ∈ l, r.date < now) →
        getFromDate l DateReq.none now = Except.ok (l.head hne))
    ∧ getCoeff (CatTable.flat [(⟨20200301, "march", "m"⟩ : Rec String),
        ⟨20200101, "january", "j"⟩]) Option.none (DateReq.valid 20190101)
        20991231 = Except.ok (some ⟨20200101, "january", "j"⟩)
    ∧ getCoeff (CatTable.flat [(⟨20200301, "march", "m"⟩ : Rec String),
        ⟨20200101, "january", "j"⟩]) Option.none DateReq.none
        20991231 = Except.ok (some ⟨20200301, "march", "m"⟩) := by
  refine ⟨?_, ?_, ?_, ?_, rfl, rfl⟩
  · intro l d now k hs hk hge hafter
    exact getFromDate_last_onOrAfter l d now k hs hk hge hafter
  · intro l d now hne hall
    exact getFromDate_all_before l d now hne hall
  · intro l now hne
    exact getFromDate_invalid l now hne
  · intro l now hne hall
    exact getFromDate_none_now l now hne hall

/-- Claim C1, witness: the amended rule applied to the concrete list
`[(date 3), (date 1)]` with requested date 2 — index 0, the date-3
record, is the last record whose date is on-or-after 2. -/
theorem C1_amended_witness :
    getFromDate [(⟨3, "", "a"⟩ : Rec String), ⟨1, "", "b"⟩]
      (DateReq.valid 2) 10 = Except.ok ⟨3, "", "a"⟩ :=
  C1_amended.1 [⟨3, "", "a"⟩, ⟨1, "", "b"⟩] 2 10 0 (by decide)
    (by decide) (by decide)
    (by
      intro j hj hk
      have hj2 : j < 2 := by simpa using hj
      have hj1 : j = 1 := by omega
      subst hj1
      simp only [List.getElem_cons_succ, List.getElem_cons_zero]
      decide)

/-- Claim C3, counterexample: two `add` calls with equal dates leave the
sequence only weakly sorted — the claimed strict descending order fails
for duplicate dates. -/
theorem C3_counterexample :
    strictDescB (buildSeq [(⟨1, "first", "a"⟩ : Rec String),
      ⟨1, "second", "b"⟩]) = false := rfl

/-- Claim C3, amended: for every sequence of `add*` calls in arbitrary
date order the resulting sequence is sorted descending by date
(non-strictly: records with equal dates sit adjacent), and strictly
descending whenever the inserted dates are pairwise distinct; each
insertion is placed at its date-correct rank by `_insertDateIndex`. -/
theorem C3_amended :
    (∀ rs : List (Rec String), descB (buildSeq rs) = true)
    ∧ (∀ rs : List (Rec String),
        rs.Pairwise (fun a b => a.date ≠ b.date) →
        strictDescB (buildSeq rs) = true) := by
  constructor
  · intro rs
    exact descB_foldl rs [] rfl
  · intro rs hp
    refine strictDescB_foldl rs [] rfl hp ?_
    intro y hy
    cases hy

/-- Claim C3, witness: inserting dates 1 then 3 (out of order, pairwise
distinct) yields a strictly descending sequence. -/
theorem C3_amended_witness :
    strictDescB (buildSeq [(⟨1, "", "a"⟩ : Rec String), ⟨3, "", "b"⟩])
      = true :=
  C3_amended.2 [⟨1, "", "a"⟩, ⟨3, "", "b"⟩] (by decide)

/-- Claim C5, counterexample: `getCoeff` on a category whose sequence is
empty (here a fresh profile's flat `dark current` list) raises
`IndexError` (`l[0]` inside `_getFromDate`) rather than returning
none. -/
theorem C5_counterexample :
    getCoeff (CatTable.flat ([] : List (Rec DCData))) Option.none
      DateReq.none 20991231 = Except.error PyErr.indexError := rfl

/-- Claim C5, amended: `getCoeff` returns none (without raising) exactly
when a spectrum-keyed category has no spectra at all; on a non-empty
resolved sequence it never raises and returns a record; but on an empty
resolved sequence (e.g. a flat category with no records) it raises
`IndexError`. -/
theorem C5_amended :
    (∀ (light : Option String) (req : DateReq) (now : Nat),
      getCoeff (CatTable.bySpec ([] : List (String × List (Rec Int))))
        light req now = Except.ok Option.none)
    ∧ (∀ (l : List (Rec Int)) (light : Option String) (req : DateReq)
        (now : Nat), l ≠ [] → ∀ e : PyErr,
        getCoeff (CatTable.flat l) light req now ≠ Except.error e)
    ∧ (∀ (l : List (Rec Int)) (light : Option String) (req : DateReq)
        (now : Nat), l ≠ [] →
        ∃ r, getCoeff (CatTable.flat l) light req now
          = Except.ok (some r))
    ∧ (∀ (light : Option String) (req : DateReq) (now : Nat),
        getCoeff (CatTable.flat ([] : List (Rec Int))) light req now
          = Except.error PyErr.indexError) := by
  refine ⟨?_, ?_, ?_, ?_⟩
  · intro light req now
    exact getCoeff_bySpec_nil light req now
  · intro l light req now hne e
    obtain ⟨r, hr, _⟩ := getFromDate_ne_nil l req now hne
    show (getFromDate l req now).map some ≠ Except.error e
    rw [hr]
    intro hcon
    cases hcon
  · intro l light req now hne
    obtain ⟨r, hr, _⟩ := getFromDate_ne_nil l req now hne
    refine ⟨r, ?_⟩
    show (getFromDate l req now).map some = Except.ok (some r)
    rw [hr]
    rfl
  · intro light req now
    show (getFromDate ([] : List (Rec Int)) req now).map some
      = Except.error PyErr.indexError
    rw [getFromDate_nil]
    rfl

/-- Claim C5, witness: the no-raise part applied to a one-record flat
sequence queried with an omitted date. -/
theorem C5_amended_witness :
    getCoeff (CatTable.flat [(⟨5, "", (0 : Int)⟩ : Rec Int)]) Option.none
      DateReq.none 10 ≠ Except.error PyErr.indexError :=
  C5_amended.2.1 [⟨5, "", 0⟩] Option.none DateReq.none 10 (by decide)
    PyErr.indexError

/-- Claim C6, counterexample: `deleteCoeff` on a non-empty sequence with
an omitted date raises (`date=None` resolves to the current time, which
postdates every stored record, so `_insertDateIndex` returns 0 and
`i == -1` triggers the `raise`), contradicting the claim that every
non-empty sequence with any date (including omitted) succeeds. -/
theorem C6_counterexample :
    deleteCoeff (CatTable.flat [(⟨5, "", (0 : Int)⟩ : Rec Int)])
      Option.none DateReq.none 10
      = Except.error PyErr.missingCalibration := rfl

/-- Claim C6, amended: for a non-empty flat sequence and a valid
requested date, `deleteCoeff` succeeds if and only if some record's date
is on-or-after the requested date (equivalently the newest record's date
is), in which case it removes exactly the record `_getFromDate` selects;
when every record is strictly older than the requested date — in
particular whenever the effective date is "now" and postdates all
records, and always on an empty sequence — it raises instead. -/
theorem C6_amended :
    ∀ (l : List (Rec Int)) (light : Option String) (d now : Nat)
      (hne : l ≠ []),
      (d ≤ (l.head hne).date →
        deleteCoeff (CatTable.flat l) light (DateReq.valid d) now
          = Except.ok (CatTable.flat
              (l.eraseIdx (insertDateIndex d l - 1)))
        ∧ (l.eraseIdx (insertDateIndex d l - 1)).length + 1 = l.length
        ∧ getFromDate l (DateReq.valid d) now
            = Except.ok (l.getD (insertDateIndex d l - 1) ⟨0, "", 0⟩))
      ∧ ((l.head hne).date < d →
        deleteCoeff (CatTable.flat l) light (DateReq.valid d) now
          = Except.error PyErr.missingCalibration) := by
  intro l light d now hne
  obtain ⟨x, t, rfl⟩ := List.exists_cons_of_ne_nil hne
  constructor
  · intro hle
    have hx : ¬ x.date < d := by
      simp only [List.head_cons] at hle
      omega
    have h0 : insertDateIndex d (x :: t) = insertDateIndex d t + 1 := by
      simp only [insertDateIndex]
      rw [if_neg hx]
    have hne0 : insertDateIndex d (x :: t) ≠ 0 := by
      rw [h0]
      exact Nat.succ_ne_zero _
    have hle2 := insertDateIndex_le_length d (x :: t)
    have hlt : insertDateIndex d (x :: t) - 1 < (x :: t).length := by
      simp only [List.length_cons] at hle2 ⊢
      omega
    refine ⟨?_, ?_, ?_⟩
    · show (deleteFromList (x :: t) (DateReq.valid d) now).map
          CatTable.flat = _
      unfold deleteFromList
      simp only [toDate]
      rw [if_neg hne0]
      rfl
    · rw [List.length_eraseIdx_of_lt hlt]
      simp only [List.length_cons] at hle2 ⊢
      omega
    · rw [getFromDate_valid_eq, if_neg hne0,
        List.getElem?_eq_getElem hlt, List.getD_eq_getElem _ _ hlt]
  · intro hgt
    have hx : x.date < d := by
      simp only [List.head_cons] at hgt
      exact hgt
    have h0 : insertDateIndex d (x :: t) = 0 := by
      simp only [insertDateIndex]
      rw [if_pos hx]
    show (deleteFromList (x :: t) (DateReq.valid d) now).map
        CatTable.flat = _
    unfold deleteFromList
    simp only [toDate]
    rw [if_pos h0]
    rfl

/-- Claim C6, witness: deleting with requested date 4 from the sequence
`[(date 5), (date 3)]` succeeds and removes the date-5 record — the one
the date-lookup rule selects. -/
theorem C6_amended_witness :
    deleteCoeff (CatTable.flat [(⟨5, "", (0 : Int)⟩ : Rec Int),
        ⟨3, "", 1⟩]) Option.none (DateReq.valid 4) 10
      = Except.ok (CatTable.flat
          ([⟨5, "", 0⟩, ⟨3, "", 1⟩].eraseIdx
            (insertDateIndex 4 [⟨5, "", (0 : Int)⟩, ⟨3, "", 1⟩] - 1))) :=
  ((C6_amended [⟨5, "", 0⟩, ⟨3, "", 1⟩] Option.none 4 10
    (by decide)).1 (by decide)).1

/-- Claim C9, counterexample: the state
`lens = {"visible": [], "IR": [record]}` is reachable (delete the only
"visible" record); then a query for the unregistered spectrum "UV" falls
back to the first-inserted spectrum "visible", whose sequence is empty,
and raises `IndexError` — even though another spectrum ("IR") has an
entry, contradicting the claim that such a query returns a record and
does not raise. -/
theorem C9_counterexample :
    deleteCoeff (CatTable.bySpec
        [("visible", [(⟨5, "v", (1 : Nat)⟩ : Rec Nat)]),
         ("IR", [⟨5, "x", 7⟩])]) (some "visible") (DateReq.valid 5) 10
      = Except.ok (CatTable.bySpec
          [("visible", []), ("IR", [⟨5, "x", 7⟩])])
    ∧ getCoeff (CatTable.bySpec [("visible", ([] : List (Rec Nat))),
        ("IR", [⟨5, "x", 7⟩])]) (some "UV") DateReq.none 10
      = Except.error PyErr.indexError := ⟨rfl, rfl⟩

/-- Claim C9, amended: when the requested spectrum (or `None`) is not a
key of a non-empty spectrum-keyed category, `getCoeff` deterministically
falls back to the first-inserted spectrum; if that spectrum's sequence
is non-empty it returns one of its records without raising (in
particular `getCoeff("lens", light="IR")` with only "visible" registered
returns the "visible" record); if the category has no spectra at all it
returns none; but if the first-inserted spectrum's sequence is empty it
raises `IndexError` even when other spectra have records. -/
theorem C9_amended :
    (∀ (k0 : String) (l0 : List (Rec Nat))
        (rest : List (String × List (Rec Nat))) (light : Option String)
        (req : DateReq) (now : Nat),
      specResolve light ((k0, l0) :: rest) = Option.none → l0 ≠ [] →
      ∃ r, r ∈ l0 ∧
        getCoeff (CatTable.bySpec ((k0, l0) :: rest)) light req now
          = Except.ok (some r))
    ∧ (∀ (light : Option String) (req : DateReq) (now : Nat),
        getCoeff (CatTable.bySpec ([] : List (String × List (Rec Nat))))
          light req now = Except.ok Option.none)
    ∧ getCoeff (CatTable.bySpec
        [("visible", [(⟨7, "v", (42 : Nat)⟩ : Rec Nat)])])
        (some "IR") DateReq.none 10
        = Except.ok (some ⟨7, "v", 42⟩) := by
  refine ⟨?_, ?_, rfl⟩
  · intro k0 l0 rest light req now hmiss hne
    obtain ⟨r, hr, hmem⟩ := getFromDate_ne_nil l0 req now hne
    refine ⟨r, hmem, ?_⟩
    simp only [getCoeff]
    rw [hmiss]
    show (getFromDate l0 req now).map some = Except.ok (some r)
    rw [hr]
    rfl
  · intro light req now
    exact getCoeff_bySpec_nil light req now

/-- Claim C9, witness: the fallback applied to a store whose only
spectrum is "vis" while "UV" is requested — no exception results. -/
theorem C9_amended_witness :
    getCoeff (CatTable.bySpec
        [("vis", [(⟨7, "v", (42 : Nat)⟩ : Rec Nat)])])
      (some "UV") DateReq.none 10 ≠ Except.error PyErr.keyError := by
  obtain ⟨r, _, hr⟩ := C9_amended.1 "vis" [⟨7, "v", 42⟩] [] (some "UV")
    DateReq.none 10 (by decide) (by decide)
  rw [hr]
  intro hcon
  cases hcon

/-- A fully populated profile: two records (dates 2 then 1, newest
first) in every category and in every spectrum sequence. -/
def c2sample : Coeffs :=
  ⟨"cam", 16, ["visible"],
   [⟨2, "new", DCData.single [[1]]⟩, ⟨1, "old", DCData.single [[2]]⟩],
   [("visible", [⟨2, "new", [[3]]⟩, ⟨1, "old", [[4]]⟩])],
   [("visible", [⟨2, "new", 10⟩, ⟨1, "old", 11⟩])],
   [⟨2, "new", [5]⟩, ⟨1, "old", [6]⟩],
   [("visible", [⟨2, "new", [[7]]⟩, ⟨1, "old", [[8]]⟩])],
   some (1, 1),
   [("visible", [⟨2, "new", 9⟩, ⟨1, "old", 10⟩])]⟩

/-- What `clearOldCalibrations` actually leaves of `c2sample`. -/
def c2result : Coeffs :=
  ⟨"cam", 16, ["visible"],
   [⟨1, "old", DCData.single [[2]]⟩],
   [("visible", [⟨1, "old", [[4]]⟩])],
   [("visible", [⟨1, "old", 11⟩])],
   [⟨1, "old", [6]⟩],
   [("visible", [⟨2, "new", [[7]]⟩, ⟨1, "old", [[8]]⟩])],
   some (1, 1),
   [("visible", [⟨2, "new", 9⟩, ⟨1, "old", 10⟩])]⟩

/-- Claim C2 (code bug): on a profile whose categories each hold two
records (dates 2 and 1, newest first), `clearOldCalibrations` keeps the
**last** element `l[-1]` of each pruned sequence — the *oldest* record
(date 1), not the previously-newest (date 2) that the claim (and the
function's own docstring, "remove all except of the youngest
calibration") promises — and it leaves the `psf` and `balance`
categories entirely unpruned (still two records). -/
theorem C2_code_behavior :
    clearOldCalibrations c2sample = Except.ok c2result
    ∧ (c2result.darkCurrent.headD ⟨0, "", DCData.single []⟩).date = 1
    ∧ (c2sample.darkCurrent.headD ⟨0, "", DCData.single []⟩).date = 2
    ∧ (1 : Nat) ≠ 2
    ∧ c2result.psf = c2sample.psf
    ∧ ((c2result.psf.headD ("", [])).2).length = 2
    ∧ ((c2result.balance.headD ("", [])).2).length = 2 := by
  refine ⟨rfl, rfl, rfl, by decide, rfl, rfl, rfl⟩

/-- Profile holding one dark-current record with an
`(slope, intercept)` payload pair. -/
def c4coeffs : Coeffs :=
  ⟨"cam", 16, [], [⟨10, "dc", DCData.pair [[3]] [[5]]⟩], [], [], [], [],
   Option.none, []⟩

/-- Claim C4 (code bug): for a dark-current record storing the pair
`(slope=[[3]], intercept=[[5]])`, `calcDarkCurrent` never synthesizes
`offset + slope × exposure_time`: the guard `type(d) == tuple` tests the
*record* (always a Python list), so the synthesis branch is dead and the
raw pair is returned; subtracting it from the image fails to broadcast,
the stage's `try/except` swallows the error, and `correct` returns the
input unchanged — instead of subtracting the clamped background
`[[5 + 3*2]] = [[11]]`, which would give `[[89]]`. -/
theorem C4_code_behavior :
    recIsTuple (⟨10, "dc", DCData.pair [[3]] [[5]]⟩ : Rec DCData) = false
    ∧ calcDarkCurrent [⟨10, "dc", DCData.pair [[3]] [[5]]⟩] (some 2)
        (DateReq.valid 10) 20991231 16
        = Except.ok (DCData.pair [[3]] [[5]])
    ∧ correctDarkCurrent c4coeffs [[100]] Option.none (some 2)
        (DateReq.valid 10) 20991231 = Except.error PyErr.valueError
    ∧ correct c4coeffs sampleCollabs [[100]] Option.none (some 2)
        Option.none 0 true false false (DateReq.valid 10) 20991231
        = Except.ok [[100]]
    ∧ specSynthBackground [[5]] [[3]] 2 16 = [[11]]
    ∧ subImg [[100]] (specSynthBackground [[5]] [[3]] 2 16) = [[89]]
    ∧ ([[89]] : Image) ≠ [[100]] := by
  refine ⟨rfl, rfl, rfl, rfl, rfl, rfl, by decide⟩

/-- Claim C7: identity correction.  Against a store with no
dark-current, flat-field or lens records (and no reference shape yet,
as in a fresh profile), `correct` with `threshold = 0`,
`deblur = False`, `denoise = False` and no background images completes
without raising and returns the input image unchanged, for every input
image, every set of collaborators and every date/spectrum argument. -/
theorem C7_identity (c : Coeffs) (cb : Collabs) (img : Image)
    (t : Option Int) (lightOpt : Option String) (ks : Bool)
    (req : DateReq) (now : Nat)
    (h1 : c.darkCurrent = []) (h2 : c.flatField = [])
    (h3 : c.lens = []) (h4 : c.shape = Option.none) :
    correct c cb img Option.none t lightOpt 0 ks false false req now
      = Except.ok img := by
  have hdark : correctDarkCurrent c img Option.none t req now
      = Except.error PyErr.indexError := by
    unfold correctDarkCurrent calcDarkCurrent
    rw [h1, getFromDate_nil]
  have hvig : correctVignetting c img (resolveLight c lightOpt) req now
      = Except.ok img := by
    unfold correctVignetting
    rw [h2, getCoeff_bySpec_nil]
  have hlens : correctLens c cb img (resolveLight c lightOpt) req now ks
      = Except.ok img := by
    unfold correctLens
    rw [h3, getCoeff_bySpec_nil]
  unfold correct
  rw [h4]
  show (let light := resolveLight c lightOpt
    let i1 := tryStage img (correctDarkCurrent c img Option.none t req now)
    let i2 := tryStage i1 (correctVignetting c i1 light req now)
    let i3 := if (0 : Int) < 0
      then tryStage i2 (correctArtefacts cb i2 0) else i2
    let i4 := if false
      then tryStage i3 (correctBlur c cb i3 light req now) else i3
    let i5 := tryStage i4 (correctLens c cb i4 light req now ks)
    if false then cb.denoiseNlm (nanToNum i5) else Except.ok i5)
    = Except.ok img
  simp [hdark, hvig, hlens, tryStage]

/-- Claim C7, witness: the identity run on a fresh (empty) profile with
a concrete 2×2 image. -/
theorem C7_identity_witness :
    correct emptyCoeffs sampleCollabs [[1, 2], [3, 4]] Option.none
      Option.none Option.none 0 true false false DateReq.none 10
      = Except.ok [[1, 2], [3, 4]] :=
  C7_identity emptyCoeffs sampleCollabs [[1, 2], [3, 4]] Option.none
    Option.none true DateReq.none 10 rfl rfl rfl rfl

/-- Claim C8: per-stage failure isolation.  Whatever the collaborators
do, `correct` can only return an error that originates in the initial
shape validation or (when `denoise` was opted in) the final denoise
stage — the five wrapped stages never abort the call; and a
permanently-failing artefact-stage collaborator yields exactly the same
result as disabling the artefact stage, i.e. the pipeline proceeds with
the pre-stage image. -/
theorem C8_isolation :
    (∀ (c : Coeffs) (cb : Collabs) (img : Image) (bg : Option Image)
        (t : Option Int) (light : Option String) (thr : Int)
        (ks dbl dn : Bool) (req : DateReq) (now : Nat) (e : PyErr),
      correct c cb img bg t light thr ks dbl dn req now
        = Except.error e →
      checkShape c.shape img = Except.error e ∨ dn = true)
    ∧ (∀ (c : Coeffs) (cb : Collabs) (img : Image) (bg : Option Image)
        (t : Option Int) (light : Option String) (thr : Int)
        (ks dbl dn : Bool) (req : DateReq) (now : Nat) (e0 : PyErr),
      0 < thr →
      correct c (setMedian cb (fun _ _ => Except.error e0)) img bg t
        light thr ks dbl dn req now
        = correct c cb img bg t light 0 ks dbl dn req now) := by
  constructor
  · intro c cb img bg t light thr ks dbl dn req now e h
    unfold correct at h
    cases hcs : checkShape c.shape img with
    | error e2 =>
      rw [hcs] at h
      injection h with h2
      subst h2
      exact Or.inl rfl
    | ok s =>
      rw [hcs] at h
      cases dn with
      | false => simp at h
      | true => exact Or.inr rfl
  · intro c cb img bg t light thr ks dbl dn req now e0 hthr
    unfold correct
    cases hcs : checkShape c.shape img with
    | error e2 => rfl
    | ok s =>
      simp only
      simp only [correctArtefacts, setMedian, if_pos hthr,
        if_neg (lt_irrefl (0 : Int)), tryStage]
      cases dbl <;> cases dn <;>
        simp only [correctBlur, correctLens, tryStage, if_true, if_false]

/-- Claim C8, witness: the error-source part applied to a run whose
shape validation fails (stored shape (2,2), 1×1 image). -/
theorem C8_isolation_witness :
    checkShape (some (2, 2)) [[(0 : Int)]]
      = Except.error PyErr.shapeMismatch ∨ false = true :=
  C8_isolation.1 ⟨"cam", 16, [], [], [], [], [], [], some (2, 2), []⟩
    sampleCollabs [[0]] Option.none Option.none Option.none 0 true false
    false DateReq.none 10 PyErr.shapeMismatch rfl

/-- A profile with a reference shape set and one registered spectrum. -/
def c10coeffs : Coeffs :=
  ⟨"cam", 16, ["visible"], [], [], [], [], [], some (2, 2), []⟩

/-- Claim C10: `addFlatField` is not atomic on failure.  With a
reference shape already set, an array of different leading dimensions
and a not-yet-registered spectrum, the call raises the shape mismatch
and inserts no flat-field record, yet the spectrum has already been
appended to the registered-spectra list by `_registerLight`, which runs
before `_checkShape`. -/
theorem C10_nonatomic (c : Coeffs) (arr : Image) (req : DateReq)
    (info light : String) (now : Nat) (s : Shape)
    (h1 : c.shape = some s) (h2 : shape2 arr ≠ s)
    (h3 : light ∉ c.lightSpectra) :
    addFlatField c arr req info light now
      = (registerLight c light, some PyErr.shapeMismatch)
    ∧ (registerLight c light).lightSpectra = c.lightSpectra ++ [light]
    ∧ (registerLight c light).flatField = c.flatField := by
  have hreg : registerLight c light
      = ⟨c.name, c.depth, c.lightSpectra ++ [light], c.darkCurrent,
         c.flatField, c.lens, c.noise, c.psf, c.shape, c.balance⟩ := by
    unfold registerLight
    rw [if_neg h3]
  have hshape : (registerLight c light).shape = some s := by
    rw [hreg]
    exact h1
  have hchk : checkShape (registerLight c light).shape arr
      = Except.error PyErr.shapeMismatch := by
    rw [hshape]
    show (if s = shape2 arr then Except.ok (some s)
        else Except.error PyErr.shapeMismatch)
      = Except.error PyErr.shapeMismatch
    rw [if_neg (fun hh : s = shape2 arr => h2 hh.symm)]
  refine ⟨?_, ?_, ?_⟩
  · unfold addFlatField
    simp only [hchk]
  · rw [hreg]
  · rw [hreg]

/-- Claim C10, witness: adding a 1×1 flat field for the unregistered
spectrum "IR" to a profile anchored at shape (2,2) fails, yet "IR" ends
up registered and the flat-field table is untouched. -/
theorem C10_nonatomic_witness :
    addFlatField c10coeffs [[(1 : Int)]] DateReq.none "i" "IR" 10
      = (registerLight c10coeffs "IR", some PyErr.shapeMismatch)
    ∧ (registerLight c10coeffs "IR").lightSpectra
        = c10coeffs.lightSpectra ++ ["IR"]
    ∧ (registerLight c10coeffs "IR").flatField = c10coeffs.flatField :=
  C10_nonatomic c10coeffs [[1]] DateReq.none "i" "IR" 10 (2, 2) rfl
    (by decide) (by decide)

end CameraCalib
